import Mathlib

/-!
Verification development for the agent process orchestrator
(src/agents/models.py, src/agents/manager.py, src/agents/monitor.py).

Conventions of the shallow embedding:
- Python Optional values become Option.
- datetime timestamps become Nat ticks; time.monotonic values become Rat.
- Python float cost values become Rat (the claims concern which arithmetic
  operation is performed, not rounding).
- Python dicts (insertion ordered, unique keys) become association lists
  with lookupA / setA / eraseA mirroring subscript read, subscript
  assignment and pop.
- Async mutation of a record by the run loop is modelled as a pure function
  from the record and the executor outcome to the updated record, together
  with the number of completion-hook invocations and whether the
  cancellation was re-raised.
-/

namespace ClaudeRadio

/-- Agent lifecycle states, from AgentStatus in src/agents/models.py. -/
inductive AgentStatus
  | starting
  | running
  | completed
  | failed
  | awaitingApproval
  | stopped
deriving DecidableEq

/-- Process record, from the AgentProcess dataclass in src/agents/models.py. -/
structure AgentProcess where
  agent_id : Nat
  user_id : Nat
  session_id : Option String
  project_path : String
  task_description : String
  status : AgentStatus
  status_message_id : Option Nat
  chat_id : Option Nat
  started_at : Nat
  completed_at : Option Nat := none
  result_summary : Option String := none
  files_changed : List String := []
  cost_usd : Rat := 0
  last_activity : Option String := none
  error_message : Option String := none
deriving DecidableEq

/-- The is_active property: status in (STARTING, RUNNING). -/
def AgentProcess.is_active (a : AgentProcess) : Bool :=
  a.status == AgentStatus.starting || a.status == AgentStatus.running

/-- The is_terminal property: status in (COMPLETED, FAILED, STOPPED). -/
def AgentProcess.is_terminal (a : AgentProcess) : Bool :=
  a.status == AgentStatus.completed || a.status == AgentStatus.failed ||
    a.status == AgentStatus.stopped

/-- Association-list read, mirroring a Python dict subscript / dict.get. -/
def lookupA {α β : Type} [DecidableEq α] (k : α) : List (α × β) → Option β
  | [] => none
  | (k2, v) :: rest => if k2 = k then some v else lookupA k rest

/-- Association-list write, mirroring Python dict subscript assignment:
updates in place when the key exists, appends otherwise. -/
def setA {α β : Type} [DecidableEq α] (k : α) (v : β) : List (α × β) → List (α × β)
  | [] => [(k, v)]
  | (k2, v2) :: rest => if k2 = k then (k, v) :: rest else (k2, v2) :: setA k v rest

/-- Association-list removal, mirroring Python dict.pop with a default. -/
def eraseA {α β : Type} [DecidableEq α] (k : α) : List (α × β) → List (α × β)
  | [] => []
  | (k2, v2) :: rest => if k2 = k then rest else (k2, v2) :: eraseA k rest

/-- Python truthiness of an Optional int: None and 0 are falsy. -/
def truthyNat : Option Nat → Bool
  | none => false
  | some n => n != 0

/-- Per-tenant slice of the manager state: the id counter
(self.counters entry, default 0) and the dict of records
(self.agents entry), from AgentProcessManager in src/agents/manager.py. -/
structure UserAgents where
  counter : Nat := 0
  agents : List (Nat × AgentProcess) := []
deriving DecidableEq

/-- get_all_agents: all records of the tenant, in insertion order. -/
def get_all_agents (s : UserAgents) : List AgentProcess :=
  s.agents.map Prod.snd

/-- get_active_agents: records whose status is Starting or Running. -/
def get_active_agents (s : UserAgents) : List AgentProcess :=
  (get_all_agents s).filter (fun a => a.is_active)

/-- get_agent: lookup of a single record by id. -/
def get_agent (s : UserAgents) (agent_id : Nat) : Option AgentProcess :=
  lookupA agent_id s.agents

/-- The admission-failure message raised by spawn_agent. -/
def admissionDeniedMsg : String := "Maximum concurrent agents reached"

/-- spawn_agent, from src/agents/manager.py lines 62-128: under the
per-tenant lock, counts active records; at or above the ceiling it raises
(modelled as Except.error) without touching counter or registry; otherwise
it advances the counter, builds a fresh Starting record and inserts it. -/
def spawn_agent (maxConcurrent : Nat) (s : UserAgents) (user_id : Nat)
    (task_description project_path : String) (chat_id : Nat) (now : Nat) :
    Except String (UserAgents × AgentProcess) :=
  if (get_active_agents s).length ≥ maxConcurrent then
    Except.error admissionDeniedMsg
  else
    let agent_id := s.counter + 1
    let agent : AgentProcess := {
      agent_id := agent_id
      user_id := user_id
      session_id := none
      project_path := project_path
      task_description := task_description
      status := AgentStatus.starting
      status_message_id := none
      chat_id := some chat_id
      started_at := now }
    Except.ok ({ counter := agent_id, agents := setA agent_id agent s.agents }, agent)

/-- Final result returned by the Claude integration, from
run_command in the manager run loop. -/
structure ClaudeResponse where
  response_session_id : String
  cost : Rat
  content : String
  is_error : Bool
deriving DecidableEq

/-- How one execution of the run loop ends: a response from the executor,
cooperative cancellation, or any other raised exception. -/
inductive RunOutcome
  | success (r : ClaudeResponse)
  | cancelled
  | failure (msg : String)
deriving DecidableEq

/-- Observable outcome of one run-loop execution: the mutated record, the
number of times the on_complete hook was invoked, and whether the
cancellation was re-raised. -/
structure RunResult where
  agent : AgentProcess
  on_complete_calls : Nat
  reraised : Bool
deriving DecidableEq

/-- The run loop (method _run_agent, src/agents/manager.py lines 130-216):
sets status to Running, then on a returned response stores session id,
cost (plain assignment), result text and completion time, branches on
is_error into Failed plus error message or Completed, and invokes the
completion hook; on CancelledError marks Stopped, stamps completion time,
skips the hook and re-raises; on any other exception marks Failed with the
message, stamps completion time and invokes the hook. -/
def run_agent (a0 : AgentProcess) (outcome : RunOutcome) (hasOnComplete : Bool)
    (now : Nat) : RunResult :=
  let a1 := { a0 with status := AgentStatus.running }
  match outcome with
  | RunOutcome.success r =>
    let a2 := { a1 with
      session_id := some r.response_session_id
      cost_usd := r.cost
      result_summary := some r.content
      completed_at := some now }
    let a3 :=
      if r.is_error then
        { a2 with status := AgentStatus.failed, error_message := some r.content }
      else
        { a2 with status := AgentStatus.completed }
    { agent := a3
      on_complete_calls := if hasOnComplete then 1 else 0
      reraised := false }
  | RunOutcome.cancelled =>
    { agent := { a1 with status := AgentStatus.stopped, completed_at := some now }
      on_complete_calls := 0
      reraised := true }
  | RunOutcome.failure msg =>
    { agent := { a1 with
        status := AgentStatus.failed
        error_message := some msg
        completed_at := some now }
      on_complete_calls := if hasOnComplete then 1 else 0
      reraised := false }

/-- stop_agent, from src/agents/manager.py lines 232-257: returns false
without mutation when the record is missing or not active; otherwise
cancels the task, waits up to the 5 second grace period (no registry
effect either way), then unconditionally marks the record Stopped with a
completion timestamp and returns true. -/
def stop_agent (s : UserAgents) (agent_id : Nat) (now : Nat) : UserAgents × Bool :=
  match get_agent s agent_id with
  | none => (s, false)
  | some a =>
    if a.is_active then
      let a2 := { a with status := AgentStatus.stopped, completed_at := some now }
      ({ s with agents := setA agent_id a2 s.agents }, true)
    else
      (s, false)

/-- The field reset direct_agent applies to a terminal record before
relaunching the run loop: new description, status back to Starting, fresh
start time, cleared completion, result, error and activity fields; id,
session id, cost, message ids and files are untouched. -/
def directReset (a : AgentProcess) (message : String) (now : Nat) : AgentProcess :=
  { a with
    task_description := message
    status := AgentStatus.starting
    started_at := now
    completed_at := none
    result_summary := none
    error_message := none
    last_activity := none }

/-- direct_agent, from src/agents/manager.py lines 268-310: None without
mutation when the record is missing or still active; otherwise resets the
mutable fields of the same record under the lock and relaunches it. -/
def direct_agent (s : UserAgents) (agent_id : Nat) (message : String) (now : Nat) :
    UserAgents × Option AgentProcess :=
  match get_agent s agent_id with
  | none => (s, none)
  | some a =>
    if a.is_active then
      (s, none)
    else
      ({ s with agents := setA agent_id (directReset a message now) s.agents },
       some (directReset a message now))

/-- Aggregate statistics returned by get_user_stats. -/
structure UserStats where
  total_agents : Nat
  active : Nat
  completed : Nat
  failed : Nat
  total_cost : Rat
deriving DecidableEq

/-- get_user_stats, from src/agents/manager.py lines 312-330: zeroed
record when the tenant has no records, otherwise counts of all, active,
completed and failed records plus the sum of costs. -/
def get_user_stats (s : UserAgents) : UserStats :=
  let agents := get_all_agents s
  if agents.isEmpty then
    { total_agents := 0, active := 0, completed := 0, failed := 0, total_cost := 0 }
  else
    { total_agents := agents.length
      active := (agents.filter (fun a => a.is_active)).length
      completed := (agents.filter (fun a => a.status == AgentStatus.completed)).length
      failed := (agents.filter (fun a => a.status == AgentStatus.failed)).length
      total_cost := (agents.map (fun a => a.cost_usd)).sum }

/-- Minimum interval between message edits, from MIN_EDIT_INTERVAL in
src/agents/monitor.py (2.0 seconds). -/
def MIN_EDIT_INTERVAL : Rat := 2

/-- State of the progress monitor (AgentProgressMonitor in
src/agents/monitor.py): per (user_id, agent_id) key, the monotonic time of
the last edit and at most one pending activity string. -/
structure MonitorState where
  last_edit : List ((Nat × Nat) × Rat) := []
  pending : List ((Nat × Nat) × String) := []
deriving DecidableEq

/-- update_status, from src/agents/monitor.py lines 52-74: no-op when the
record lacks a status message id or chat id (Python falsiness); when the
elapsed time since the last edit (default 0) is below the minimum interval
the activity is stored as the pending value (last write wins) and nothing
is sent; otherwise the pending value is discarded, the timestamp is
stamped and the activity is sent. The second component is the activity
string carried by the edit that was issued, if any. -/
def update_status (m : MonitorState) (a : AgentProcess) (activity : String)
    (now : Rat) : MonitorState × Option String :=
  if !truthyNat a.status_message_id || !truthyNat a.chat_id then
    (m, none)
  else
    let key := (a.user_id, a.agent_id)
    let last := (lookupA key m.last_edit).getD 0
    if now - last < MIN_EDIT_INTERVAL then
      ({ m with pending := setA key activity m.pending }, none)
    else
      ({ m with
          pending := eraseA key m.pending
          last_edit := setA key now m.last_edit },
       some activity)

/-- show_completion, from src/agents/monitor.py lines 76-87: no-op when
the record lacks a status message id or chat id; otherwise discards any
pending value and issues the completion edit (second component true). -/
def show_completion (m : MonitorState) (a : AgentProcess) : MonitorState × Bool :=
  if !truthyNat a.status_message_id || !truthyNat a.chat_id then
    (m, false)
  else
    ({ m with pending := eraseA (a.user_id, a.agent_id) m.pending }, true)

/-- flush_pending, from src/agents/monitor.py lines 89-96: pops the
pending value for the key; if one was present and truthy (non-empty), it
is sent and the timestamp stamped, otherwise nothing is sent. -/
def flush_pending (m : MonitorState) (a : AgentProcess) (now : Rat) :
    MonitorState × Option String :=
  let key := (a.user_id, a.agent_id)
  let pending := lookupA key m.pending
  let m1 : MonitorState := { m with pending := eraseA key m.pending }
  match pending with
  | some p =>
    if p ≠ "" then
      ({ m1 with last_edit := setA key now m1.last_edit }, some p)
    else
      (m1, none)
  | none => (m1, none)

/-- One manager operation on a single tenant, for reasoning about
interleavings: a spawn attempt, a stop, a run-loop completion for a given
record, or a direct (continuation) attempt. -/
inductive MOp
  | spawn (task_description project_path : String) (chat_id now : Nat)
  | stop (agent_id now : Nat)
  | finish (agent_id : Nat) (outcome : RunOutcome) (now : Nat)
  | direct (agent_id : Nat) (message : String) (now : Nat)

/-- One step of the manager on a tenant slice; the second component is the
id handed out when the operation was a successful spawn. A failed spawn
(admission denied) leaves the state untouched. A finish applies the run
loop terminal bookkeeping to the named record in place. -/
def stepM (maxConcurrent user_id : Nat) (s : UserAgents) : MOp → UserAgents × Option Nat
  | MOp.spawn task pp chat now =>
    match spawn_agent maxConcurrent s user_id task pp chat now with
    | Except.error _ => (s, none)
    | Except.ok (s2, a) => (s2, some a.agent_id)
  | MOp.stop aid now => ((stop_agent s aid now).1, none)
  | MOp.finish aid outcome now =>
    match get_agent s aid with
    | none => (s, none)
    | some a =>
      ({ s with agents := setA aid (run_agent a outcome true now).agent s.agents },
       none)
  | MOp.direct aid msg now => ((direct_agent s aid msg now).1, none)

/-- Run a sequence of operations, collecting the ids assigned by the
successful spawns, in order. -/
def runTrace (maxConcurrent user_id : Nat) : UserAgents → List MOp → UserAgents × List Nat
  | s, [] => (s, [])
  | s, op :: ops =>
    ((runTrace maxConcurrent user_id (stepM maxConcurrent user_id s op).1 ops).1,
     (stepM maxConcurrent user_id s op).2.toList ++
       (runTrace maxConcurrent user_id (stepM maxConcurrent user_id s op).1 ops).2)

/-- The list c+1, c+2, ..., c+k of k consecutive ids after c. -/
def seqFrom (c : Nat) : Nat → List Nat
  | 0 => []
  | k + 1 => (c + 1) :: seqFrom (c + 1) k

/-- Registry invariant: the stored keys are exactly 1..counter in order,
and every stored record carries its own key as agent_id. -/
def RegistryInv (s : UserAgents) : Prop :=
  s.agents.map Prod.fst = seqFrom 0 s.counter ∧
    ∀ p ∈ s.agents, (Prod.snd p).agent_id = Prod.fst p

/-- The manager state of a tenant before any operation. -/
def initialAgents : UserAgents := {}

/-! Helper lemmas about the association-list operations. -/

theorem lookupA_mem {α β : Type} [DecidableEq α] {k : α} {v : β} {l : List (α × β)}
    (h : lookupA k l = some v) : (k, v) ∈ l := by
  induction l with
  | nil => simp [lookupA] at h
  | cons p rest ih =>
    obtain ⟨k2, v2⟩ := p
    by_cases hk : k2 = k
    · subst hk
      simp [lookupA] at h
      simp [h]
    · simp [lookupA, hk] at h
      exact List.mem_cons_of_mem _ (ih h)

theorem lookupA_mem_fst {α β : Type} [DecidableEq α] {k : α} {v : β} {l : List (α × β)}
    (h : lookupA k l = some v) : k ∈ l.map Prod.fst :=
  List.mem_map.mpr ⟨(k, v), lookupA_mem h, rfl⟩

theorem lookupA_none_not_mem {α β : Type} [DecidableEq α] {k : α} {l : List (α × β)}
    (h : lookupA k l = none) : k ∉ l.map Prod.fst := by
  induction l with
  | nil => simp
  | cons p rest ih =>
    obtain ⟨k2, v2⟩ := p
    by_cases hk : k2 = k
    · subst hk; simp [lookupA] at h
    · simp [lookupA, hk] at h
      simpa [hk, Ne.symm hk] using ih h

theorem setA_fresh {α β : Type} [DecidableEq α] {k : α} (v : β) {l : List (α × β)}
    (h : k ∉ l.map Prod.fst) : setA k v l = l ++ [(k, v)] := by
  induction l with
  | nil => simp [setA]
  | cons p rest ih =>
    obtain ⟨k2, v2⟩ := p
    simp only [List.map_cons, List.mem_cons] at h
    push_neg at h
    have h1 : k2 ≠ k := Ne.symm h.1
    simp [setA, h1, ih h.2]

theorem setA_map_fst_of_mem {α β : Type} [DecidableEq α] {k : α} (v : β)
    {l : List (α × β)} (h : k ∈ l.map Prod.fst) :
    (setA k v l).map Prod.fst = l.map Prod.fst := by
  induction l with
  | nil => simp at h
  | cons p rest ih =>
    obtain ⟨k2, v2⟩ := p
    by_cases hk : k2 = k
    · subst hk; simp [setA]
    · simp only [List.map_cons, List.mem_cons] at h
      rcases h with h | h
      · exact absurd h.symm hk
      · simp [setA, hk, ih h]

theorem mem_setA {α β : Type} [DecidableEq α] {k : α} {v : β} {p : α × β}
    {l : List (α × β)} (h : p ∈ setA k v l) : p = (k, v) ∨ p ∈ l := by
  induction l with
  | nil => simpa [setA] using h
  | cons q rest ih =>
    obtain ⟨k2, v2⟩ := q
    by_cases hk : k2 = k
    · subst hk
      simp [setA] at h
      rcases h with h | h
      · exact Or.inl h
      · exact Or.inr (List.mem_cons_of_mem _ h)
    · simp [setA, hk] at h
      rcases h with h | h
      · exact Or.inr (by simp [h])
      · rcases ih h with h2 | h2
        · exact Or.inl h2
        · exact Or.inr (List.mem_cons_of_mem _ h2)

theorem eraseA_setA_not_mem {α β : Type} [DecidableEq α] {k : α} (v : β)
    {l : List (α × β)} (h : lookupA k l = none) : eraseA k (setA k v l) = l := by
  induction l with
  | nil => simp [setA, eraseA]
  | cons p rest ih =>
    obtain ⟨k2, v2⟩ := p
    by_cases hk : k2 = k
    · subst hk; simp [lookupA] at h
    · simp [lookupA, hk] at h
      simp [setA, eraseA, hk, ih h]

/-! Helper lemmas about consecutive id sequences. -/

theorem seqFrom_append (c k : Nat) : seqFrom c (k + 1) = seqFrom c k ++ [c + k + 1] := by
  induction k generalizing c with
  | zero => simp [seqFrom]
  | succ k ih =>
    rw [seqFrom, ih (c + 1), seqFrom]
    simp [List.cons_append]
    omega

theorem mem_seqFrom {c k m : Nat} (h : m ∈ seqFrom c k) : c + 1 ≤ m ∧ m ≤ c + k := by
  induction k generalizing c with
  | zero => simp [seqFrom] at h
  | succ k ih =>
    rw [seqFrom] at h
    rcases List.mem_cons.mp h with rfl | h2
    · omega
    · have := ih h2
      omega

theorem seqFrom_length (c k : Nat) : (seqFrom c k).length = k := by
  induction k generalizing c with
  | zero => rfl
  | succ k ih => simp [seqFrom, ih]

theorem seqFrom_nodup (c k : Nat) : (seqFrom c k).Nodup := by
  induction k generalizing c with
  | zero => simp [seqFrom]
  | succ k ih =>
    rw [seqFrom]
    refine List.nodup_cons.mpr ⟨fun h => ?_, ih (c + 1)⟩
    have := mem_seqFrom h
    omega

/-- The run loop never changes the id of the record it mutates. -/
theorem run_agent_id (a : AgentProcess) (o : RunOutcome) (hc : Bool) (now : Nat) :
    (run_agent a o hc now).agent.agent_id = a.agent_id := by
  cases o with
  | success r => by_cases he : r.is_error <;> simp [run_agent, he]
  | cancelled => simp [run_agent]
  | failure msg => simp [run_agent]

/-- Updating a record stored at its own key preserves the registry
invariant. -/
theorem registryInv_setA {s : UserAgents} (h : RegistryInv s) {aid : Nat}
    {a2 : AgentProcess} (hmem : aid ∈ s.agents.map Prod.fst)
    (hid : a2.agent_id = aid) :
    RegistryInv { s with agents := setA aid a2 s.agents } := by
  obtain ⟨hkeys, hvals⟩ := h
  refine ⟨?_, ?_⟩
  · simpa [setA_map_fst_of_mem a2 hmem] using hkeys
  · intro p hp
    rcases mem_setA hp with rfl | hp2
    · simpa using hid
    · exact hvals p hp2

/-- One manager step preserves the registry invariant; it hands out the id
counter plus one exactly when it is a successful spawn, and otherwise
leaves the counter alone. -/
theorem stepM_registryInv (maxConcurrent user_id : Nat) (s : UserAgents) (op : MOp)
    (h : RegistryInv s) :
    RegistryInv (stepM maxConcurrent user_id s op).1 ∧
      ((stepM maxConcurrent user_id s op).2 = none ∧
        (stepM maxConcurrent user_id s op).1.counter = s.counter ∨
       (stepM maxConcurrent user_id s op).2 = some (s.counter + 1) ∧
        (stepM maxConcurrent user_id s op).1.counter = s.counter + 1) := by
  obtain ⟨hkeys, hvals⟩ := h
  cases op with
  | spawn task pp chat now =>
    by_cases hfull : (get_active_agents s).length ≥ maxConcurrent
    · simp [stepM, spawn_agent, hfull]
      exact ⟨hkeys, hvals⟩
    · have hfresh : s.counter + 1 ∉ s.agents.map Prod.fst := by
        rw [hkeys]
        intro hmem
        have := mem_seqFrom hmem
        omega
      simp only [stepM, spawn_agent, hfull, if_false, ite_false]
      constructor
      · constructor
        · simp only [setA_fresh _ hfresh, List.map_append, List.map_cons, List.map_nil]
          rw [hkeys, seqFrom_append 0 s.counter]
          simp
        · intro p hp
          simp only [setA_fresh _ hfresh] at hp
          rcases List.mem_append.mp hp with hp2 | hp2
          · exact hvals p hp2
          · simp at hp2
            subst hp2
            rfl
      · right
        exact ⟨trivial, trivial⟩
  | stop aid now =>
    refine ⟨?_, Or.inl ⟨rfl, ?_⟩⟩
    · simp only [stepM, stop_agent]
      cases hl : get_agent s aid with
      | none => exact ⟨hkeys, hvals⟩
      | some a =>
        by_cases ha : a.is_active
        · simp only [ha, if_true]
          have hid : a.agent_id = aid := hvals (aid, a) (lookupA_mem hl)
          exact registryInv_setA ⟨hkeys, hvals⟩ (lookupA_mem_fst hl) hid
        · simp only [ha]
          simp
          exact ⟨hkeys, hvals⟩
    · simp only [stepM, stop_agent]
      cases hl : get_agent s aid with
      | none => rfl
      | some a => by_cases ha : a.is_active <;> simp [ha]
  | finish aid outcome now =>
    refine ⟨?_, Or.inl ⟨?_, ?_⟩⟩
    · simp only [stepM]
      cases hl : get_agent s aid with
      | none => exact ⟨hkeys, hvals⟩
      | some a =>
        have hid : a.agent_id = aid := hvals (aid, a) (lookupA_mem hl)
        exact registryInv_setA ⟨hkeys, hvals⟩ (lookupA_mem_fst hl)
          ((run_agent_id a outcome true now).trans hid)
    · simp only [stepM]
      cases hl : get_agent s aid <;> rfl
    · simp only [stepM]
      cases hl : get_agent s aid <;> rfl
  | direct aid msg now =>
    refine ⟨?_, Or.inl ⟨rfl, ?_⟩⟩
    · simp only [stepM, direct_agent]
      cases hl : get_agent s aid with
      | none => exact ⟨hkeys, hvals⟩
      | some a =>
        by_cases ha : a.is_active
        · simp only [ha, if_true]
          exact ⟨hkeys, hvals⟩
        · simp only [ha, if_false, ite_false]
          have hid : a.agent_id = aid := hvals (aid, a) (lookupA_mem hl)
          exact registryInv_setA ⟨hkeys, hvals⟩ (lookupA_mem_fst hl) hid
    · simp only [stepM, direct_agent]
      cases hl : get_agent s aid with
      | none => rfl
      | some a => by_cases ha : a.is_active <;> simp [ha]

/-- Running any trace from a state satisfying the registry invariant
yields exactly the next consecutive block of ids, advances the counter by
the number of successful spawns, and preserves the invariant. -/
theorem runTrace_registry (maxConcurrent user_id : Nat) (ops : List MOp) :
    ∀ s : UserAgents, RegistryInv s →
      (runTrace maxConcurrent user_id s ops).2 =
        seqFrom s.counter (runTrace maxConcurrent user_id s ops).2.length ∧
      (runTrace maxConcurrent user_id s ops).1.counter =
        s.counter + (runTrace maxConcurrent user_id s ops).2.length ∧
      RegistryInv (runTrace maxConcurrent user_id s ops).1 := by
  induction ops with
  | nil =>
    intro s hs
    exact ⟨rfl, rfl, hs⟩
  | cons op ops ih =>
    intro s hs
    obtain ⟨hinv, hdisj⟩ := stepM_registryInv maxConcurrent user_id s op hs
    obtain ⟨hids, hcount, hinv2⟩ := ih (stepM maxConcurrent user_id s op).1 hinv
    rcases hdisj with ⟨hnone, hc⟩ | ⟨hsome, hc⟩
    · refine ⟨?_, ?_, ?_⟩
      · simp only [runTrace, hnone, Option.toList_none, List.nil_append]
        rw [hids, hc, seqFrom_length]
      · simp only [runTrace, hnone, Option.toList_none, List.nil_append]
        omega
      · simpa [runTrace] using hinv2
    · refine ⟨?_, ?_, ?_⟩
      · simp only [runTrace, hsome, Option.toList_some, List.singleton_append,
          List.length_cons]
        rw [seqFrom, ← hc, ← hids]
      · simp only [runTrace, hsome, Option.toList_some, List.singleton_append,
          List.length_cons]
        omega
      · simpa [runTrace] using hinv2

/-! Concrete records and states used to evaluate the theorems. -/

/-- A completed record with a nonzero accumulated cost. -/
def sampleDone : AgentProcess :=
  { agent_id := 1
    user_id := 7
    session_id := some "sess"
    project_path := "/p"
    task_description := "task one"
    status := AgentStatus.completed
    status_message_id := some 11
    chat_id := some 99
    started_at := 0
    completed_at := some 4
    result_summary := some "done"
    cost_usd := 5 }

/-- A currently running record. -/
def sampleActive : AgentProcess :=
  { sampleDone with agent_id := 2, status := AgentStatus.running, completed_at := none }

/-- A record waiting for approval. -/
def sampleAwaiting : AgentProcess :=
  { sampleDone with agent_id := 3, status := AgentStatus.awaitingApproval }

/-- A tenant slice holding one completed, one running and one awaiting
record. -/
def sampleState : UserAgents :=
  { counter := 3, agents := [(1, sampleDone), (2, sampleActive), (3, sampleAwaiting)] }

/-- Claim C1: with the number of active (Starting or Running) records at
or above the configured ceiling (the source default being 5), spawn_agent
fails with the admission-denied error and performs no mutation: the
corresponding manager step returns the tenant slice unchanged, so no
record is inserted and the id counter is not advanced. -/
theorem spawn_admission_denied (maxConcurrent user_id : Nat) (s : UserAgents)
    (task pp : String) (chat now : Nat)
    (h : maxConcurrent ≤ (get_active_agents s).length) :
    spawn_agent maxConcurrent s user_id task pp chat now =
      Except.error admissionDeniedMsg ∧
    stepM maxConcurrent user_id s (MOp.spawn task pp chat now) = (s, none) := by
  have h2 : (get_active_agents s).length ≥ maxConcurrent := h
  constructor
  · simp [spawn_agent, h2]
  · simp [stepM, spawn_agent, h2]

/-- Witness for C1: one running record and a ceiling of one. -/
theorem spawn_admission_denied_witness :
    spawn_agent 1 sampleState 7 "next" "/q" 99 9 = Except.error admissionDeniedMsg ∧
    stepM 1 7 sampleState (MOp.spawn "next" "/q" 99 9) = (sampleState, none) :=
  spawn_admission_denied 1 7 sampleState "next" "/q" 99 9 (by decide)

/-- Claim C2: over every interleaving of spawn, stop, run-loop completion
and direct operations starting from an empty tenant slice, the ids handed
out by the successful spawns are exactly 1, 2, 3, ... in order and without
duplicates; the counter always equals the number of successful spawns, the
registry keys are exactly 1..counter in insertion order (keys are never
removed, so an id is never freed for reuse), and every stored record keeps
its own key as its agent_id, so an id never moves to a different record
even after the record turns terminal. -/
theorem spawn_ids_dense (maxConcurrent user_id : Nat) (ops : List MOp) :
    (runTrace maxConcurrent user_id initialAgents ops).2 =
      seqFrom 0 (runTrace maxConcurrent user_id initialAgents ops).2.length ∧
    (runTrace maxConcurrent user_id initialAgents ops).2.Nodup ∧
    (runTrace maxConcurrent user_id initialAgents ops).1.counter =
      (runTrace maxConcurrent user_id initialAgents ops).2.length ∧
    (runTrace maxConcurrent user_id initialAgents ops).1.agents.map Prod.fst =
      seqFrom 0 (runTrace maxConcurrent user_id initialAgents ops).1.counter ∧
    ∀ p ∈ (runTrace maxConcurrent user_id initialAgents ops).1.agents,
      (Prod.snd p).agent_id = Prod.fst p := by
  have hinit : RegistryInv initialAgents := by
    constructor
    · rfl
    · intro p hp
      simp [initialAgents] at hp
  obtain ⟨hids, hcount, hinv⟩ :=
    runTrace_registry maxConcurrent user_id ops initialAgents hinit
  refine ⟨hids, ?_, hcount.trans (Nat.zero_add _), hinv.1, hinv.2⟩
  rw [hids]
  exact seqFrom_nodup _ _

/-- The executor response used in the cost counterexample: a successful
run that reports a cost of 3. -/
def costResponse : ClaudeResponse :=
  { response_session_id := "sess", cost := 3, content := "ok", is_error := false }

/-- Counterexample to claim C4 as stated: on a record whose accumulated
cost is 5, a successful run returning cost 3 leaves the record with cost
3, not 5 + 3 — the run loop assigns the returned cost instead of adding
it, so the cost of a record can decrease across a continuation. -/
theorem cost_not_accumulated :
    (run_agent sampleDone (RunOutcome.success costResponse) true 9).agent.cost_usd = 3 ∧
    ¬ (run_agent sampleDone (RunOutcome.success costResponse) true 9).agent.cost_usd =
        sampleDone.cost_usd + costResponse.cost := by
  constructor
  · rfl
  · intro hEq
    have h3 : (run_agent sampleDone (RunOutcome.success costResponse) true 9).agent.cost_usd
        = (3 : Rat) := rfl
    have h5 : sampleDone.cost_usd = (5 : Rat) := rfl
    have hcost : costResponse.cost = (3 : Rat) := rfl
    rw [h3, h5, hcost] at hEq
    norm_num at hEq

/-- Claim C4 amended: on every run-loop completion with an executor
response, the returned cost replaces the cost stored on the record
(plain assignment, error and non-error results alike); across a
continuation the record carries the cost of the most recent run only, so
it is not monotonically accumulated. -/
theorem cost_overwritten (a : AgentProcess) (r : ClaudeResponse) (hc : Bool)
    (now : Nat) :
    (run_agent a (RunOutcome.success r) hc now).agent.cost_usd = r.cost := by
  by_cases he : r.is_error <;> simp [run_agent, he]

/-- Claim C5: the run loop distinguishes cancellation from failure: on
cancellation it marks the record Stopped with a completion timestamp,
never invokes the completion hook and re-raises; on a response with
is_error true it marks the record Failed, stores the response content as
the error message, stamps completion time and invokes the hook exactly
once without re-raising; on any other exception it marks the record
Failed with the exception message, stamps completion time and invokes the
hook exactly once without re-raising. -/
theorem run_loop_distinguishes_cancel (a : AgentProcess) (now : Nat) :
    (∀ hc : Bool,
      (run_agent a RunOutcome.cancelled hc now).agent.status = AgentStatus.stopped ∧
      (run_agent a RunOutcome.cancelled hc now).agent.completed_at = some now ∧
      (run_agent a RunOutcome.cancelled hc now).on_complete_calls = 0 ∧
      (run_agent a RunOutcome.cancelled hc now).reraised = true) ∧
    (∀ r : ClaudeResponse, r.is_error = true →
      (run_agent a (RunOutcome.success r) true now).agent.status = AgentStatus.failed ∧
      (run_agent a (RunOutcome.success r) true now).agent.error_message = some r.content ∧
      (run_agent a (RunOutcome.success r) true now).agent.completed_at = some now ∧
      (run_agent a (RunOutcome.success r) true now).on_complete_calls = 1 ∧
      (run_agent a (RunOutcome.success r) true now).reraised = false) ∧
    (∀ msg : String,
      (run_agent a (RunOutcome.failure msg) true now).agent.status = AgentStatus.failed ∧
      (run_agent a (RunOutcome.failure msg) true now).agent.error_message = some msg ∧
      (run_agent a (RunOutcome.failure msg) true now).agent.completed_at = some now ∧
      (run_agent a (RunOutcome.failure msg) true now).on_complete_calls = 1 ∧
      (run_agent a (RunOutcome.failure msg) true now).reraised = false) := by
  refine ⟨fun hc => ?_, fun r hr => ?_, fun msg => ?_⟩
  · simp [run_agent]
  · simp [run_agent, hr]
  · simp [run_agent]

/-- The executor response used in the run-loop witness: an error result. -/
def errorResponse : ClaudeResponse :=
  { response_session_id := "sess", cost := 1, content := "boom", is_error := true }

/-- Witness for C5 at concrete inputs. -/
theorem run_loop_distinguishes_cancel_witness :
    (run_agent sampleDone RunOutcome.cancelled true 9).on_complete_calls = 0 ∧
    (run_agent sampleDone (RunOutcome.success errorResponse) true 9).agent.status =
      AgentStatus.failed ∧
    (run_agent sampleDone (RunOutcome.failure "x") true 9).on_complete_calls = 1 :=
  ⟨((run_loop_distinguishes_cancel sampleDone 9).1 true).2.2.1,
   ((run_loop_distinguishes_cancel sampleDone 9).2.1 errorResponse rfl).1,
   ((run_loop_distinguishes_cancel sampleDone 9).2.2 "x").2.2.2.1⟩

/-- The record update stop_agent applies to an active record: status
unconditionally set to Stopped, completion time stamped. -/
def stoppedAt (a : AgentProcess) (now : Nat) : AgentProcess :=
  { a with status := AgentStatus.stopped, completed_at := some now }

/-- Claim C6: stop_agent returns false and mutates nothing when the id is
unknown for the tenant or the record is not active; on an active record it
returns true and replaces the record, in place at the same key, by the
same record with status unconditionally set to Stopped and completion
time stamped — the 5 second cancellation grace period has no effect on
this bookkeeping. -/
theorem stop_agent_spec (s : UserAgents) (aid now : Nat) :
    (get_agent s aid = none → stop_agent s aid now = (s, false)) ∧
    (∀ a, get_agent s aid = some a → a.is_active = false →
      stop_agent s aid now = (s, false)) ∧
    (∀ a, get_agent s aid = some a → a.is_active = true →
      stop_agent s aid now =
        ({ s with agents := setA aid (stoppedAt a now) s.agents }, true)) := by
  refine ⟨fun h => ?_, fun a h ha => ?_, fun a h ha => ?_⟩
  · simp [stop_agent, h]
  · simp [stop_agent, h, ha]
  · simp [stop_agent, stoppedAt, h, ha]

/-- Witness for C6: unknown id, terminal record, active record. -/
theorem stop_agent_spec_witness :
    stop_agent sampleState 9 4 = (sampleState, false) ∧
    stop_agent sampleState 1 4 = (sampleState, false) ∧
    (stop_agent sampleState 2 4).2 = true :=
  ⟨(stop_agent_spec sampleState 9 4).1 rfl,
   (stop_agent_spec sampleState 1 4).2.1 sampleDone rfl rfl,
   by rw [(stop_agent_spec sampleState 2 4).2.2 sampleActive rfl rfl]⟩

/-- Claim C7: direct_agent returns None without mutation when the record
is missing or still active; on a non-active record it keeps the same key
and record identity — agent_id and the prior session_id are untouched —
while setting the description to the new message, resetting status to
Starting, clearing completed_at, result_summary, error_message and
last_activity, and refreshing started_at. -/
theorem direct_agent_spec (s : UserAgents) (aid : Nat) (msg : String) (now : Nat) :
    (get_agent s aid = none → direct_agent s aid msg now = (s, none)) ∧
    (∀ a, get_agent s aid = some a → a.is_active = true →
      direct_agent s aid msg now = (s, none)) ∧
    (∀ a, get_agent s aid = some a → a.is_active = false →
      direct_agent s aid msg now =
        ({ s with agents := setA aid (directReset a msg now) s.agents },
         some (directReset a msg now)) ∧
      (directReset a msg now).agent_id = a.agent_id ∧
      (directReset a msg now).session_id = a.session_id ∧
      (directReset a msg now).task_description = msg ∧
      (directReset a msg now).status = AgentStatus.starting ∧
      (directReset a msg now).started_at = now ∧
      (directReset a msg now).completed_at = none ∧
      (directReset a msg now).result_summary = none ∧
      (directReset a msg now).error_message = none ∧
      (directReset a msg now).last_activity = none) := by
  refine ⟨fun h => ?_, fun a h ha => ?_, fun a h ha => ?_⟩
  · simp [direct_agent, h]
  · simp [direct_agent, h, ha]
  · refine ⟨?_, rfl, rfl, rfl, rfl, rfl, rfl, rfl, rfl, rfl⟩
    simp [direct_agent, h, ha]

/-- Witness for C7: unknown id, active record, terminal record. -/
theorem direct_agent_spec_witness :
    direct_agent sampleState 9 "more" 8 = (sampleState, none) ∧
    direct_agent sampleState 2 "more" 8 = (sampleState, none) ∧
    (direct_agent sampleState 1 "more" 8).2 = some (directReset sampleDone "more" 8) :=
  ⟨(direct_agent_spec sampleState 9 "more" 8).1 rfl,
   (direct_agent_spec sampleState 2 "more" 8).2.1 sampleActive rfl rfl,
   by rw [((direct_agent_spec sampleState 1 "more" 8).2.2 sampleDone rfl rfl).1]⟩

/-- Claim C8: get_user_stats is, for every tenant slice, the pure
aggregation over the full record list — total is the record count, active
counts Starting and Running records, completed and failed count the
respective statuses, total_cost sums the record costs — and on a tenant
with zero records every field is zero; being a total pure function it
mutates nothing and never raises. -/
theorem get_user_stats_spec (s : UserAgents) :
    get_user_stats s =
      { total_agents := (get_all_agents s).length
        active := ((get_all_agents s).filter (fun a => a.is_active)).length
        completed :=
          ((get_all_agents s).filter (fun a => a.status == AgentStatus.completed)).length
        failed :=
          ((get_all_agents s).filter (fun a => a.status == AgentStatus.failed)).length
        total_cost := ((get_all_agents s).map (fun a => a.cost_usd)).sum } ∧
    (get_all_agents s = [] →
      get_user_stats s =
        { total_agents := 0, active := 0, completed := 0, failed := 0,
          total_cost := 0 }) := by
  constructor
  · by_cases he : (get_all_agents s).isEmpty
    · have hnil : get_all_agents s = [] := by
        cases hc : get_all_agents s with
        | nil => rfl
        | cons x xs => rw [hc] at he; simp [List.isEmpty] at he
      simp [get_user_stats, hnil]
    · simp [get_user_stats, he]
  · intro h
    simp [get_user_stats, h]

/-- Witness for C8: the empty tenant slice yields all-zero statistics. -/
theorem get_user_stats_spec_witness :
    get_user_stats initialAgents =
      { total_agents := 0, active := 0, completed := 0, failed := 0, total_cost := 0 } :=
  (get_user_stats_spec initialAgents).2 rfl

/-- Claim C9: no record is ever both active and terminal, and a record in
AwaitingApproval is neither: it never appears in the active list (so it
does not count toward the admission ceiling), its status matches neither
the completed nor the failed filter used by the statistics, and it is
eligible for a direct respawn, which succeeds and returns the reset
record. -/
theorem awaiting_approval_neither (a : AgentProcess) :
    ¬ (a.is_active = true ∧ a.is_terminal = true) ∧
    (a.status = AgentStatus.awaitingApproval →
      a.is_active = false ∧
      a.is_terminal = false ∧
      (∀ s : UserAgents, a ∉ get_active_agents s) ∧
      (a.status == AgentStatus.completed) = false ∧
      (a.status == AgentStatus.failed) = false ∧
      (∀ (s : UserAgents) (aid : Nat) (msg : String) (now : Nat),
        get_agent s aid = some a →
        (direct_agent s aid msg now).2 = some (directReset a msg now))) := by
  constructor
  · rintro ⟨h1, h2⟩
    cases hst : a.status <;>
      simp [AgentProcess.is_active, AgentProcess.is_terminal, hst] at h1 h2
  · intro hst
    have hact : a.is_active = false := by simp [AgentProcess.is_active, hst]
    have hterm : a.is_terminal = false := by simp [AgentProcess.is_terminal, hst]
    refine ⟨hact, hterm, ?_, by rw [hst]; rfl, by rw [hst]; rfl, ?_⟩
    · intro s hmem
      have := (List.mem_filter.mp hmem).2
      rw [hact] at this
      exact Bool.false_ne_true this
    · intro s aid msg now hl
      simp [direct_agent, hl, hact]

/-- Witness for C9: the awaiting record of the sample state. -/
theorem awaiting_approval_neither_witness :
    sampleAwaiting.is_active = false ∧
    sampleAwaiting.is_terminal = false ∧
    (direct_agent sampleState 3 "more" 9).2 =
      some (directReset sampleAwaiting "more" 9) :=
  ⟨((awaiting_approval_neither sampleAwaiting).2 rfl).1,
   ((awaiting_approval_neither sampleAwaiting).2 rfl).2.1,
   ((awaiting_approval_neither sampleAwaiting).2 rfl).2.2.2.2.2 sampleState 3 "more" 9 rfl⟩

/-- Claim C10: when a record has no status message id or no chat id (in
the Python sense of falsiness), update_status and show_completion return
without any effect: nothing is sent or edited, no pending value is
recorded, and the per-key last-edit timestamp is unchanged, because the
whole monitor state is returned as it was. -/
theorem monitor_skips_without_ids (m : MonitorState) (a : AgentProcess)
    (activity : String) (now : Rat)
    (h : truthyNat a.status_message_id = false ∨ truthyNat a.chat_id = false) :
    update_status m a activity now = (m, none) ∧ show_completion m a = (m, false) := by
  rcases h with h | h <;> simp [update_status, show_completion, h]

/-- A running record whose status message was never created. -/
def sampleNoMsg : AgentProcess :=
  { sampleActive with agent_id := 4, status_message_id := none }

/-- Witness for C10 on a record without a status message id. -/
theorem monitor_skips_without_ids_witness :
    update_status {} sampleNoMsg "act" 5 = ({}, none) ∧
    show_completion {} sampleNoMsg = ({}, false) :=
  monitor_skips_without_ids {} sampleNoMsg "act" 5 (Or.inl rfl)

/-- Claim C3: starting from a monitor state whose last edit for the key
happened at t0 and with no pending value for the key, two updates that
arrive within the minimum interval of each other — the first still inside
the throttle window of t0, the second past it — produce exactly one send,
and that send carries the second (latest) activity string; a flush
performed afterwards, with no new pending value having arrived, sends
nothing. -/
theorem coalescer_second_wins (m0 : MonitorState) (a : AgentProcess)
    (t0 t1 t2 t3 : Rat) (act1 act2 : String)
    (hmsg : truthyNat a.status_message_id = true)
    (hchat : truthyNat a.chat_id = true)
    (hlast : lookupA (a.user_id, a.agent_id) m0.last_edit = some t0)
    (hpend : lookupA (a.user_id, a.agent_id) m0.pending = none)
    (h1 : t1 - t0 < MIN_EDIT_INTERVAL)
    (hpair : t2 - t1 < MIN_EDIT_INTERVAL)
    (h2 : MIN_EDIT_INTERVAL ≤ t2 - t0) :
    (update_status m0 a act1 t1).2 = none ∧
    (update_status (update_status m0 a act1 t1).1 a act2 t2).2 = some act2 ∧
    (flush_pending (update_status (update_status m0 a act1 t1).1 a act2 t2).1 a t3).2 =
      none := by
  have hnotlt : ¬ (t2 - t0 < MIN_EDIT_INTERVAL) := not_lt.mpr h2
  have herase :
      eraseA (a.user_id, a.agent_id)
        (setA (a.user_id, a.agent_id) act1 m0.pending) = m0.pending :=
    eraseA_setA_not_mem act1 hpend
  refine ⟨?_, ?_, ?_⟩
  · simp [update_status, hmsg, hchat, hlast, h1]
  · simp [update_status, hmsg, hchat, hlast, h1, hnotlt]
  · simp [flush_pending, update_status, hmsg, hchat, hlast, h1, hnotlt, herase, hpend]

/-- The monitor state used in the coalescing witness: last edit for the
sample key at time 0, no pending value. -/
def monState : MonitorState :=
  { last_edit := [((7, 2), 0)], pending := [] }

/-- Witness for C3: updates at times 1 and 5/2 after an edit at 0, flush
at 10. -/
theorem coalescer_second_wins_witness :
    (update_status monState sampleActive "a1" 1).2 = none ∧
    (update_status (update_status monState sampleActive "a1" 1).1 sampleActive "a2"
      (5 / 2)).2 = some "a2" ∧
    (flush_pending (update_status (update_status monState sampleActive "a1" 1).1
      sampleActive "a2" (5 / 2)).1 sampleActive 10).2 = none :=
  coalescer_second_wins monState sampleActive 0 1 (5 / 2) 10 "a1" "a2"
    rfl rfl rfl rfl (by norm_num [MIN_EDIT_INTERVAL])
    (by norm_num [MIN_EDIT_INTERVAL]) (by norm_num [MIN_EDIT_INTERVAL])

end ClaudeRadio
